import Mathlib

set_option maxRecDepth 8192

/-!
Verification of the TwitchNotifierBot repository (src/index.js, src/methods.js).

The JavaScript source is shallowly embedded below.  Network effects are made
explicit: every place the program consults the network (a fetch result, a
Telegram acknowledgment, a deletion outcome) becomes a parameter of the
embedded function, so each function is a pure, executable Lean definition.
Times are epoch milliseconds modelled as `Int` (the values of `Date.now()`).
-/

namespace TwitchBot

/-! ### Poll loop tick (index.js, `main`)

Per tick the loop runs

    const liveNow = await getLiveStreams(ids);
    for (const uid of ids) {
      const isLive = Boolean(liveNow[uid]);
      if (isLive && !wasLive[uid]) { await tgSend(formatMsg(liveNow[uid])); }
      wasLive[uid] = isLive;
    }

inside a `try` whose `catch` is outside the `for` loop.  `tgSend` logs and
returns normally on a non-success HTTP acknowledgment, but a transport error
makes `fetch` reject, so `await tgSend(...)` throws and the remaining loop
body — including the `wasLive[uid] = isLive` update for the current and all
later ids — is skipped for that tick.  We model the outcome of each `tgSend`
call by an oracle `outcome : String → DispatchOutcome`. -/

/-- Outcome of one `tgSend` invocation: a success acknowledgment, a
non-success acknowledgment (logged, no throw), or a transport error
(`fetch` rejects and the exception propagates out of the `for` loop). -/
inductive DispatchOutcome
  | ok
  | failAck
  | transportErr
deriving DecidableEq, Repr

/-- Result of one poll tick: the ids for which a `tgSend` call was made, the
`wasLive` map after the tick, and whether the tick was aborted by a thrown
dispatch. -/
structure TickOut where
  dispatched : List String
  wasLive : String → Bool
  aborted : Bool

/-- One poll tick of `main` (index.js lines 195–213), given the live set
`live` fetched at the start of the tick (`Boolean(liveNow[uid])`) and the
per-id dispatch outcome oracle. -/
def runTick (ids : List String) (wasLive : String → Bool) (live : String → Bool)
    (outcome : String → DispatchOutcome) : TickOut :=
  match ids with
  | [] => ⟨[], wasLive, false⟩
  | uid :: rest =>
    if live uid && !wasLive uid then
      match outcome uid with
      | DispatchOutcome.transportErr =>
        -- `await tgSend` throws: the loop aborts before `wasLive[uid] = isLive`.
        ⟨[uid], wasLive, true⟩
      | _ =>
        let r := runTick rest (fun x => if x = uid then live uid else wasLive x) live outcome
        ⟨uid :: r.dispatched, r.wasLive, r.aborted⟩
    else
      let r := runTick rest (fun x => if x = uid then live uid else wasLive x) live outcome
      ⟨r.dispatched, r.wasLive, r.aborted⟩

/-- Any id that received a dispatch call was a tracked id that was live with
recorded state `false` at the start of the tick (holds even for aborted
ticks). -/
theorem runTick_dispatched_mem (ids : List String) (w live : String → Bool)
    (out : String → DispatchOutcome) (t : String)
    (ht : t ∈ (runTick ids w live out).dispatched) :
    t ∈ ids ∧ live t = true ∧ w t = false := by
  induction ids generalizing w with
  | nil => simp [runTick] at ht
  | cons uid rest ih =>
    by_cases hc : (live uid && !w uid) = true
    · rcases Bool.and_eq_true_iff.mp hc with ⟨hl, hw⟩
      rw [Bool.not_eq_true'] at hw
      cases hout : out uid with
      | transportErr =>
        simp [runTick, hc, hout] at ht
        subst ht
        exact ⟨List.mem_cons_self _ _, hl, hw⟩
      | ok =>
        simp only [runTick, hc, hout, if_true] at ht
        rcases List.mem_cons.mp ht with h | h
        · subst h; exact ⟨List.mem_cons_self _ _, hl, hw⟩
        · rcases ih _ h with ⟨hmem, hlt, hwt⟩
          by_cases he : t = uid
          · subst he; simp [hl] at hwt
          · simp only [he, if_false] at hwt
            exact ⟨List.mem_cons_of_mem _ hmem, hlt, hwt⟩
      | failAck =>
        simp only [runTick, hc, hout, if_true] at ht
        rcases List.mem_cons.mp ht with h | h
        · subst h; exact ⟨List.mem_cons_self _ _, hl, hw⟩
        · rcases ih _ h with ⟨hmem, hlt, hwt⟩
          by_cases he : t = uid
          · subst he; simp [hl] at hwt
          · simp only [he, if_false] at hwt
            exact ⟨List.mem_cons_of_mem _ hmem, hlt, hwt⟩
    · simp only [runTick, hc, if_false] at ht
      rcases ih _ ht with ⟨hmem, hlt, hwt⟩
      refine ⟨List.mem_cons_of_mem _ hmem, hlt, ?_⟩
      by_cases he : t = uid
      · rw [he] at hlt hwt ⊢
        rw [if_pos rfl] at hwt
        simp [hlt] at hwt
      · rwa [if_neg he] at hwt

/-- The recorded state of an id not in the iteration list is never touched. -/
theorem runTick_wasLive_not_mem (ids : List String) (w live : String → Bool)
    (out : String → DispatchOutcome) (t : String) (ht : t ∉ ids) :
    (runTick ids w live out).wasLive t = w t := by
  induction ids generalizing w with
  | nil => rfl
  | cons uid rest ih =>
    have htu : t ≠ uid := fun h => ht (h ▸ List.mem_cons_self _ _)
    have htr : t ∉ rest := fun h => ht (List.mem_cons_of_mem _ h)
    cases hc : (live uid && !w uid) with
    | true =>
      cases hout : out uid with
      | transportErr => simp [runTick, hc, hout]
      | ok =>
        simp only [runTick, hc, hout, eq_self_iff_true, if_true]
        rw [ih _ htr, if_neg htu]
      | failAck =>
        simp only [runTick, hc, hout, eq_self_iff_true, if_true]
        rw [ih _ htr, if_neg htu]
    | false =>
      simp only [runTick, hc, if_neg Bool.false_ne_true]
      rw [ih _ htr, if_neg htu]

/-- When no dispatch call on the tick throws, the tick is not aborted. -/
theorem runTick_not_aborted (ids : List String) (w live : String → Bool)
    (out : String → DispatchOutcome)
    (h : ∀ uid ∈ ids, out uid ≠ DispatchOutcome.transportErr) :
    (runTick ids w live out).aborted = false := by
  induction ids generalizing w with
  | nil => rfl
  | cons uid rest ih =>
    have hrest : ∀ u ∈ rest, out u ≠ DispatchOutcome.transportErr :=
      fun u hu => h u (List.mem_cons_of_mem _ hu)
    cases hc : (live uid && !w uid) with
    | true =>
      cases hout : out uid with
      | transportErr => exact absurd hout (h uid (List.mem_cons_self _ _))
      | ok => simpa [runTick, hc, hout] using ih _ hrest
      | failAck => simpa [runTick, hc, hout] using ih _ hrest
    | false => simpa [runTick, hc] using ih _ hrest

/-- When no dispatch call on the tick throws, the recorded state of every
tracked id equals its liveness on this tick after the tick (the
`wasLive[uid] = isLive` line is reached for every id). -/
theorem runTick_wasLive_eq (ids : List String) (w live : String → Bool)
    (out : String → DispatchOutcome)
    (h : ∀ uid ∈ ids, out uid ≠ DispatchOutcome.transportErr) (t : String)
    (ht : t ∈ ids) :
    (runTick ids w live out).wasLive t = live t := by
  induction ids generalizing w with
  | nil => exact absurd ht (List.not_mem_nil _)
  | cons uid rest ih =>
    have hrest : ∀ u ∈ rest, out u ≠ DispatchOutcome.transportErr :=
      fun u hu => h u (List.mem_cons_of_mem _ hu)
    by_cases htr : t ∈ rest
    · cases hc : (live uid && !w uid) with
      | true =>
        cases hout : out uid with
        | transportErr => exact absurd hout (h uid (List.mem_cons_self _ _))
        | ok => simpa [runTick, hc, hout] using ih _ hrest htr
        | failAck => simpa [runTick, hc, hout] using ih _ hrest htr
      | false => simpa [runTick, hc] using ih _ hrest htr
    · have htu : t = uid := by
        rcases List.mem_cons.mp ht with h' | h'
        · exact h'
        · exact absurd h' htr
      subst htu
      cases hc : (live t && !w t) with
      | true =>
        cases hout : out t with
        | transportErr => exact absurd hout (h t (List.mem_cons_self _ _))
        | ok =>
          simp only [runTick, hc, hout, eq_self_iff_true, if_true]
          rw [runTick_wasLive_not_mem _ _ _ _ _ htr, if_pos rfl]
        | failAck =>
          simp only [runTick, hc, hout, eq_self_iff_true, if_true]
          rw [runTick_wasLive_not_mem _ _ _ _ _ htr, if_pos rfl]
      | false =>
        simp only [runTick, hc, if_neg Bool.false_ne_true]
        rw [runTick_wasLive_not_mem _ _ _ _ _ htr, if_pos rfl]

/-- When no dispatch call on the tick throws, a tracked id receives a
dispatch call exactly when it is live on this tick and its recorded state
was false. -/
theorem runTick_dispatched_iff (ids : List String) (w live : String → Bool)
    (out : String → DispatchOutcome)
    (h : ∀ uid ∈ ids, out uid ≠ DispatchOutcome.transportErr) (t : String)
    (ht : t ∈ ids) :
    t ∈ (runTick ids w live out).dispatched ↔ (live t = true ∧ w t = false) := by
  induction ids generalizing w with
  | nil => exact absurd ht (List.not_mem_nil _)
  | cons uid rest ih =>
    have hrest : ∀ u ∈ rest, out u ≠ DispatchOutcome.transportErr :=
      fun u hu => h u (List.mem_cons_of_mem _ hu)
    by_cases hte : t = uid
    · subst hte
      cases hc : (live t && !w t) with
      | true =>
        rcases Bool.and_eq_true_iff.mp hc with ⟨hl, hw⟩
        rw [Bool.not_eq_true'] at hw
        cases hout : out t with
        | transportErr => exact absurd hout (h t (List.mem_cons_self _ _))
        | ok =>
          simp only [runTick, hc, hout, eq_self_iff_true, if_true]
          simp [hl, hw]
        | failAck =>
          simp only [runTick, hc, hout, eq_self_iff_true, if_true]
          simp [hl, hw]
      | false =>
        simp only [runTick, hc, if_neg Bool.false_ne_true]
        constructor
        · intro hmem
          rcases runTick_dispatched_mem _ _ _ _ _ hmem with ⟨_, hlt, hwt⟩
          rw [if_pos rfl] at hwt
          rw [hwt] at hlt
          simp at hlt
        · rintro ⟨hl, hw⟩
          rw [hl, hw] at hc
          simp at hc
    · have htr : t ∈ rest := by
        rcases List.mem_cons.mp ht with h' | h'
        · exact absurd h' hte
        · exact h'
      cases hc : (live uid && !w uid) with
      | true =>
        cases hout : out uid with
        | transportErr => exact absurd hout (h uid (List.mem_cons_self _ _))
        | ok =>
          simp only [runTick, hc, hout, eq_self_iff_true, if_true, List.mem_cons]
          rw [ih _ hrest htr, if_neg hte]
          simp [hte]
        | failAck =>
          simp only [runTick, hc, hout, eq_self_iff_true, if_true, List.mem_cons]
          rw [ih _ hrest htr, if_neg hte]
          simp [hte]
      | false =>
        simp only [runTick, hc, if_neg Bool.false_ne_true]
        rw [ih _ hrest htr, if_neg hte]

/-- C1 (amended): on every poll tick all of whose dispatch calls complete
without throwing (no transport error), a `tgSend` call is made for a tracked
account exactly when the account is in the tick's fetched live set and its
recorded live state was false; under the same condition for the first of two
consecutive ticks, an account live on both ticks gets no dispatch on the
second; and — unconditionally — every dispatch call is for an account that
is live with recorded state false. -/
theorem runTick_dispatch_characterization (ids : List String)
    (w live1 live2 : String → Bool) (out1 out2 : String → DispatchOutcome)
    (h1 : ∀ uid ∈ ids, out1 uid ≠ DispatchOutcome.transportErr) :
    (∀ uid ∈ ids,
      uid ∈ (runTick ids w live1 out1).dispatched ↔
        (live1 uid = true ∧ w uid = false)) ∧
    (∀ uid ∈ ids, live1 uid = true → live2 uid = true →
      uid ∉ (runTick ids (runTick ids w live1 out1).wasLive live2 out2).dispatched) ∧
    (∀ uid, uid ∈ (runTick ids w live1 out1).dispatched →
      live1 uid = true ∧ w uid = false) := by
  refine ⟨fun uid hm => runTick_dispatched_iff ids w live1 out1 h1 uid hm,
    fun uid hm hl1 hl2 hmem => ?_,
    fun uid hmem => (runTick_dispatched_mem ids w live1 out1 uid hmem).2⟩
  rcases runTick_dispatched_mem _ _ _ _ _ hmem with ⟨_, _, hw⟩
  rw [runTick_wasLive_eq ids w live1 out1 h1 uid hm, hl1] at hw
  exact absurd hw (by simp)

/-- C1 counterexample: with ids `["1","2"]`, both live, both previously not
live, and the dispatch for `"1"` throwing a transport error, the tick aborts
before reaching `"2"`, so `"2"` is live with recorded state false yet
receives no dispatch — the claimed biconditional fails. -/
theorem runTick_dispatch_iff_fails :
    ¬ (∀ uid ∈ ["1", "2"],
        uid ∈ (runTick ["1", "2"] (fun _ => false) (fun _ => true)
          (fun u => if u = "1" then DispatchOutcome.transportErr
                    else DispatchOutcome.ok)).dispatched ↔
          ((fun _ : String => true) uid = true ∧
           (fun _ : String => false) uid = false)) := by
  decide

/-- Witness for the amended C1 theorem at a concrete input. -/
theorem runTick_dispatch_characterization_witness :
    (∀ uid ∈ ["1", "2"],
      (fun _ : String => DispatchOutcome.ok) uid ≠ DispatchOutcome.transportErr) ∧
    ((∀ uid ∈ ["1", "2"],
      uid ∈ (runTick ["1", "2"] (fun _ => false) (fun u => u == "1")
        (fun _ => DispatchOutcome.ok)).dispatched ↔
        ((fun u : String => u == "1") uid = true ∧
         (fun _ : String => false) uid = false)) ∧
    (∀ uid ∈ ["1", "2"], (fun u : String => u == "1") uid = true →
      (fun _ : String => true) uid = true →
      uid ∉ (runTick ["1", "2"]
        (runTick ["1", "2"] (fun _ => false) (fun u => u == "1")
          (fun _ => DispatchOutcome.ok)).wasLive
        (fun _ => true) (fun _ => DispatchOutcome.ok)).dispatched) ∧
    (∀ uid, uid ∈ (runTick ["1", "2"] (fun _ => false) (fun u => u == "1")
        (fun _ => DispatchOutcome.ok)).dispatched →
      (fun u : String => u == "1") uid = true ∧
      (fun _ : String => false) uid = false)) :=
  ⟨by decide,
   runTick_dispatch_characterization ["1", "2"] (fun _ => false)
     (fun u => u == "1") (fun _ => true)
     (fun _ => DispatchOutcome.ok) (fun _ => DispatchOutcome.ok) (by decide)⟩

/-- C2 (amended): on every poll tick in which no dispatch call throws, the
recorded live state of every tracked id is unconditionally set to that id's
presence in the tick's live set (even when its dispatch was skipped or
received a failure acknowledgment), the tick is not aborted, and such a live
sighting is not re-dispatched on the next tick while it stays live. -/
theorem runTick_state_update (ids : List String) (w live : String → Bool)
    (out : String → DispatchOutcome)
    (h : ∀ uid ∈ ids, out uid ≠ DispatchOutcome.transportErr) :
    (∀ uid ∈ ids, (runTick ids w live out).wasLive uid = live uid) ∧
    (runTick ids w live out).aborted = false ∧
    (∀ uid ∈ ids, ∀ live2 : String → Bool, ∀ out2 : String → DispatchOutcome,
      live uid = true → live2 uid = true →
      uid ∉ (runTick ids (runTick ids w live out).wasLive live2 out2).dispatched) := by
  refine ⟨fun uid hm => runTick_wasLive_eq ids w live out h uid hm,
    runTick_not_aborted ids w live out h,
    fun uid hm live2 out2 hl1 hl2 hmem => ?_⟩
  rcases runTick_dispatched_mem _ _ _ _ _ hmem with ⟨_, _, hw⟩
  rw [runTick_wasLive_eq ids w live out h uid hm, hl1] at hw
  exact absurd hw (by simp)

/-- C2 counterexample: a single tracked account that is live, with the
dispatch failing with a transport error.  The thrown `tgSend` aborts the
tick before `wasLive[uid] = isLive` runs, so the recorded state stays
`false` (not the claimed `true`), and the next tick with the account still
live dispatches a second notification. -/
theorem runTick_state_update_fails :
    ¬ ((runTick ["1"] (fun _ => false) (fun _ => true)
        (fun _ => DispatchOutcome.transportErr)).wasLive "1" = true) ∧
    "1" ∈ (runTick ["1"]
      (runTick ["1"] (fun _ => false) (fun _ => true)
        (fun _ => DispatchOutcome.transportErr)).wasLive
      (fun _ => true) (fun _ => DispatchOutcome.ok)).dispatched := by
  decide

/-- Witness for the amended C2 theorem: a live account whose dispatch
returns a failure acknowledgment still has its recorded state updated and
is not re-notified. -/
theorem runTick_state_update_witness :
    (∀ uid ∈ ["1"],
      (fun _ : String => DispatchOutcome.failAck) uid ≠ DispatchOutcome.transportErr) ∧
    ((∀ uid ∈ ["1"],
      (runTick ["1"] (fun _ => false) (fun _ => true)
        (fun _ => DispatchOutcome.failAck)).wasLive uid = (fun _ : String => true) uid) ∧
    (runTick ["1"] (fun _ => false) (fun _ => true)
      (fun _ => DispatchOutcome.failAck)).aborted = false ∧
    (∀ uid ∈ ["1"], ∀ live2 : String → Bool, ∀ out2 : String → DispatchOutcome,
      (fun _ : String => true) uid = true → live2 uid = true →
      uid ∉ (runTick ["1"]
        (runTick ["1"] (fun _ => false) (fun _ => true)
          (fun _ => DispatchOutcome.failAck)).wasLive live2 out2).dispatched)) :=
  ⟨by decide,
   runTick_state_update ["1"] (fun _ => false) (fun _ => true)
     (fun _ => DispatchOutcome.failAck) (by decide)⟩

/-! ### Telegram send (methods.js, `tgSendStream`)

`tgSendStream` posts a photo message.  The `fetch` call itself is NOT inside
a `try`, so a transport error rejects the returned promise and propagates to
the caller; only `JSON.parse` of the acknowledgment body is guarded.  After a
parse success the code runs

    if (!res.ok || !data || data.ok === false) { ...; return null; }
    const messageId = data.result && data.result.message_id;
    if (messageId != null) { sentMessages.push({ chatId, messageId, sentAt: Date.now() }); }
    return messageId;

We model the network outcome of the send as a `SendNet` value: either a
transport error, or an acknowledgment with an HTTP success flag and a parse
result for the body (`none` when `JSON.parse` throws, `ParsedBody.falsy`
when it yields a falsy value such as `null`, and `ParsedBody.obj` for an
object carrying whether `data.ok === false` and the optional
`data.result.message_id`). -/

/-- One record of `sentMessages`: `{ chatId, messageId, sentAt }`. -/
structure SentRec where
  chatId : String
  messageId : Int
  sentAt : Int
deriving DecidableEq, Repr

/-- Parse result of a Telegram acknowledgment body. -/
inductive ParsedBody
  | falsy
  | obj (okFalse : Bool) (messageId : Option Int)
deriving DecidableEq, Repr

/-- Network outcome of one Telegram HTTP call. -/
inductive SendNet
  | transportErr
  | ack (httpOk : Bool) (body : Option ParsedBody)
deriving DecidableEq, Repr

/-- `tgSendStream` (methods.js lines 105-156): returns the value of the JS
`return` (`Except.ok`) or a thrown exception (`Except.error`), together with
the `sentMessages` ledger after the call.  The returned `Option Int` is the
JS return value: `none` for `null`/`undefined`, `some id` for a message id. -/
def tgSendStream (net : SendNet) (chatId : String) (now : Int)
    (ledger : List SentRec) : Except Unit (Option Int) × List SentRec :=
  match net with
  | SendNet.transportErr =>
    -- `await fetch(...)` rejects; no try/catch here, the exception escapes.
    (Except.error (), ledger)
  | SendNet.ack httpOk body =>
    match body with
    | none =>
      -- JSON.parse threw: "Telegram parse error" is logged, return null.
      (Except.ok none, ledger)
    | some ParsedBody.falsy =>
      -- !data: "Telegram error" is logged, return null.
      (Except.ok none, ledger)
    | some (ParsedBody.obj okFalse mid) =>
      if !httpOk || okFalse then (Except.ok none, ledger)
      else
        match mid with
        | some id => (Except.ok (some id), ledger ++ [⟨chatId, id, now⟩])
        | none => (Except.ok none, ledger)

/-- C3 counterexample: on a transport error `tgSendStream` does not return
null — the rejection of `fetch` propagates (the call throws). -/
theorem tgSendStream_transport_raises :
    (tgSendStream SendNet.transportErr "chat" 0 []).1 ≠ Except.ok none ∧
    (tgSendStream SendNet.transportErr "chat" 0 []).1 = Except.error () :=
  ⟨(fun h => nomatch h), rfl⟩

/-- C3 (amended): whenever the transport layer yields an acknowledgment,
`tgSendStream` returns without raising: null on an unparseable body, a falsy
body, a non-success HTTP status, or `data.ok === false`, and the message
identifier on a successful acknowledgment that contains one; a transport
error instead propagates as an exception. -/
theorem tgSendStream_ack_behavior (hk : Bool) (body : Option ParsedBody)
    (c : String) (now : Int) (led : List SentRec) :
    (∃ v, (tgSendStream (SendNet.ack hk body) c now led).1 = Except.ok v) ∧
    (body = none →
      (tgSendStream (SendNet.ack hk body) c now led).1 = Except.ok none) ∧
    (body = some ParsedBody.falsy →
      (tgSendStream (SendNet.ack hk body) c now led).1 = Except.ok none) ∧
    (hk = false →
      (tgSendStream (SendNet.ack hk body) c now led).1 = Except.ok none) ∧
    (∀ mid, body = some (ParsedBody.obj true mid) →
      (tgSendStream (SendNet.ack hk body) c now led).1 = Except.ok none) ∧
    (∀ okF mid, body = some (ParsedBody.obj okF mid) → hk = true → okF = false →
      (tgSendStream (SendNet.ack hk body) c now led).1 = Except.ok mid) ∧
    (tgSendStream SendNet.transportErr c now led).1 = Except.error () := by
  refine ⟨?_, ?_, ?_, ?_, ?_, ?_, rfl⟩
  · rcases body with _ | pb
    · exact ⟨none, rfl⟩
    · rcases pb with _ | ⟨okF, mid⟩
      · exact ⟨none, rfl⟩
      · cases hk <;> cases okF <;> rcases mid with _ | id <;>
          first
          | exact ⟨none, rfl⟩
          | exact ⟨some id, rfl⟩
  · rintro rfl; rfl
  · rintro rfl; rfl
  · rintro rfl
    rcases body with _ | pb
    · rfl
    · rcases pb with _ | ⟨okF, mid⟩
      · rfl
      · cases okF <;> rcases mid with _ | id <;> rfl
  · rintro mid rfl
    cases hk <;> rcases mid with _ | id <;> rfl
  · rintro okF mid rfl rfl rfl
    rcases mid with _ | id <;> rfl

/-- Witness for the amended C3 theorem at a concrete successful input. -/
theorem tgSendStream_ack_behavior_witness :
    ((some (ParsedBody.obj false (some 7)) : Option ParsedBody) =
        some (ParsedBody.obj false (some 7))) ∧
    ((∃ v, (tgSendStream (SendNet.ack true (some (ParsedBody.obj false (some 7))))
        "chat" 5 []).1 = Except.ok v) ∧
    ((some (ParsedBody.obj false (some 7)) : Option ParsedBody) = none →
      (tgSendStream (SendNet.ack true (some (ParsedBody.obj false (some 7))))
        "chat" 5 []).1 = Except.ok none) ∧
    ((some (ParsedBody.obj false (some 7)) : Option ParsedBody) = some ParsedBody.falsy →
      (tgSendStream (SendNet.ack true (some (ParsedBody.obj false (some 7))))
        "chat" 5 []).1 = Except.ok none) ∧
    (true = false →
      (tgSendStream (SendNet.ack true (some (ParsedBody.obj false (some 7))))
        "chat" 5 []).1 = Except.ok none) ∧
    (∀ mid, (some (ParsedBody.obj false (some 7)) : Option ParsedBody) =
        some (ParsedBody.obj true mid) →
      (tgSendStream (SendNet.ack true (some (ParsedBody.obj false (some 7))))
        "chat" 5 []).1 = Except.ok none) ∧
    (∀ okF mid, (some (ParsedBody.obj false (some 7)) : Option ParsedBody) =
        some (ParsedBody.obj okF mid) → true = true → okF = false →
      (tgSendStream (SendNet.ack true (some (ParsedBody.obj false (some 7))))
        "chat" 5 []).1 = Except.ok mid) ∧
    (tgSendStream SendNet.transportErr "chat" 5 []).1 = Except.error ()) :=
  ⟨rfl, tgSendStream_ack_behavior true (some (ParsedBody.obj false (some 7))) "chat" 5 []⟩

/-- C4: the `sentMessages` ledger after a `tgSendStream` call is the old
ledger extended with exactly one record `{chatId, messageId, sentAt = now}`
when the call returned a message identifier (a successful acknowledgment
containing one), and is unchanged in every other outcome, including all
failures and the thrown transport error. -/
theorem tgSendStream_ledger_append (net : SendNet) (c : String) (now : Int)
    (led : List SentRec) :
    (tgSendStream net c now led).2 =
      led ++ (match (tgSendStream net c now led).1 with
              | Except.ok (some id) => [⟨c, id, now⟩]
              | _ => []) ∧
    ((tgSendStream net c now led).2 ≠ led ↔
      ∃ id, net = SendNet.ack true (some (ParsedBody.obj false (some id)))) := by
  have happ : ∀ r : SentRec, led ++ [r] ≠ led := by
    intro r h
    have := congrArg List.length h
    simp at this
  cases net with
  | transportErr => simp [tgSendStream]
  | ack hk body =>
    rcases body with _ | pb
    · simp [tgSendStream]
    · rcases pb with _ | ⟨okF, mid⟩
      · simp [tgSendStream]
      · cases hk <;> cases okF <;> rcases mid with _ | id <;>
          simp [tgSendStream, happ]

/-! ### Telegram message deletion (methods.js, `deleteTelegramMessage`)

Unlike `tgSendStream`, the whole body of `deleteTelegramMessage` — including
the `fetch` — sits inside a `try`; the parse uses `.catch(() => null)`, so an
unparseable body becomes `null` and then fails the `!data` test.  Any thrown
error is caught, logged and turned into `return false`. -/

/-- The try-block of `deleteTelegramMessage` (methods.js lines 159-176):
`Except.error` is a thrown error (transport error, or the locally thrown
`delete failed` error on a bad acknowledgment). -/
def deleteTelegramMessageTry (net : SendNet) : Except String Bool :=
  match net with
  | SendNet.transportErr => Except.error "fetch rejected"
  | SendNet.ack httpOk body =>
    let data := body.getD ParsedBody.falsy
    match data with
    | ParsedBody.falsy => Except.error "delete failed"
    | ParsedBody.obj okFalse _ =>
      if !httpOk || okFalse then Except.error "delete failed"
      else Except.ok true

/-- `deleteTelegramMessage` (methods.js lines 159-176): the surrounding
`catch` converts every thrown error into `false`. -/
def deleteTelegramMessage (chatId : String) (messageId : Int) (net : SendNet) : Bool :=
  match deleteTelegramMessageTry net with
  | Except.ok b => b
  | Except.error _ =>
    -- the catch block logs `chatId`/`messageId` and returns false
    let _ := (chatId, messageId)
    false

/-- C10: `deleteTelegramMessage` is total over all transport and API
outcomes — for every chat id, message id and network outcome it returns a
boolean rather than raising, and that boolean is `true` exactly when the
HTTP response is successful and its parsed body is a truthy value whose `ok`
field is not `false`; every other outcome (non-success status, falsy or
unparseable body, transport error) yields `false`. -/
theorem deleteTelegramMessage_total (c : String) (m : Int) (net : SendNet) :
    deleteTelegramMessage c m net =
      (match net with
       | SendNet.ack true (some (ParsedBody.obj false _)) => true
       | _ => false) := by
  cases net with
  | transportErr => rfl
  | ack hk body =>
    rcases body with _ | pb
    · cases hk <;> rfl
    · rcases pb with _ | ⟨okF, mid⟩
      · cases hk <;> rfl
      · cases hk <;> cases okF <;> rfl

/-! ### Twitch app token lifecycle (methods.js, `getAppToken` / `twitchHeaders`)

Module state: `TWITCH_TOKEN` (initially `null`) and `TWITCH_TOKEN_EXPIRES_AT`
(initially `0`, epoch ms).  `getAppToken` posts the client-credentials grant;
on a non-success status it throws, otherwise it stores the returned token and

    const ttlSec = Number(data.expires_in || 3600);
    TWITCH_TOKEN_EXPIRES_AT = Date.now() + Math.max(ttlSec - 300, 300) * 1000;

`twitchHeaders` refreshes when `!TWITCH_TOKEN || Date.now() > TWITCH_TOKEN_EXPIRES_AT`. -/

/-- Response of the token endpoint: HTTP success flag, `access_token`, and
`expires_in` (`none` when the field is absent; `data.expires_in || 3600`
also maps a present `0` to the default 3600). -/
structure TokenResp where
  httpOk : Bool
  accessToken : String
  expiresIn : Option Int
deriving DecidableEq, Repr

/-- The module-level token state `(TWITCH_TOKEN, TWITCH_TOKEN_EXPIRES_AT)`. -/
structure TokenState where
  token : Option String
  expiresAt : Int
deriving DecidableEq, Repr

/-- Initial module state: `TWITCH_TOKEN = null`, `TWITCH_TOKEN_EXPIRES_AT = 0`. -/
def initTokenState : TokenState := ⟨none, 0⟩

/-- `getAppToken` (methods.js lines 21-39): throws on a non-success status,
otherwise stores the token and the derived expiry. -/
def getAppToken (resp : TokenResp) (now : Int) (st : TokenState) :
    Except String TokenState :=
  if !resp.httpOk then Except.error "Twitch token error"
  else
    let ttlSec : Int :=
      match resp.expiresIn with
      | none => 3600
      | some t => if t = 0 then 3600 else t  -- `data.expires_in || 3600`
    let _ := st
    Except.ok ⟨some resp.accessToken, now + max (ttlSec - 300) 300 * 1000⟩

/-- C5: on every successful acquisition the stored expiry is
`now + max(issuedLifetimeSeconds − 300, 300)` seconds (stored in epoch ms),
so the refresh margin is 300 s with a floor of 300 s even when the issued
lifetime is shorter than the margin; an absent lifetime defaults to 3600 s. -/
theorem getAppToken_expiry (resp : TokenResp) (now : Int) (st : TokenState)
    (hok : resp.httpOk = true) :
    (∀ ttl, resp.expiresIn = some ttl → ttl ≠ 0 →
      getAppToken resp now st =
        Except.ok ⟨some resp.accessToken, now + max (ttl - 300) 300 * 1000⟩) ∧
    (∀ ttl, resp.expiresIn = some ttl → ttl ≠ 0 → ttl < 600 →
      getAppToken resp now st =
        Except.ok ⟨some resp.accessToken, now + 300 * 1000⟩) ∧
    (resp.expiresIn = none →
      getAppToken resp now st =
        Except.ok ⟨some resp.accessToken, now + 3300 * 1000⟩) := by
  refine ⟨?_, ?_, ?_⟩
  · intro ttl hin hne
    simp [getAppToken, hok, hin, hne]
  · intro ttl hin hne hlt
    have hmax : max (ttl - 300) 300 = 300 := max_eq_right (by omega)
    simp [getAppToken, hok, hin, hne, hmax]
  · intro hin
    simp [getAppToken, hok, hin]

/-- Witness for the C5 theorem: a successful response with a 100-second
lifetime (shorter than the 300 s margin) stores `expiresAt = now + 300000`. -/
theorem getAppToken_expiry_witness :
    ({ httpOk := true, accessToken := "tok", expiresIn := some 100 } : TokenResp).httpOk = true ∧
    ((∀ ttl, ({ httpOk := true, accessToken := "tok", expiresIn := some 100 } : TokenResp).expiresIn = some ttl → ttl ≠ 0 →
      getAppToken { httpOk := true, accessToken := "tok", expiresIn := some 100 } 1000 initTokenState =
        Except.ok ⟨some "tok", 1000 + max (ttl - 300) 300 * 1000⟩) ∧
    (∀ ttl, ({ httpOk := true, accessToken := "tok", expiresIn := some 100 } : TokenResp).expiresIn = some ttl → ttl ≠ 0 → ttl < 600 →
      getAppToken { httpOk := true, accessToken := "tok", expiresIn := some 100 } 1000 initTokenState =
        Except.ok ⟨some "tok", 1000 + 300 * 1000⟩) ∧
    (({ httpOk := true, accessToken := "tok", expiresIn := some 100 } : TokenResp).expiresIn = none →
      getAppToken { httpOk := true, accessToken := "tok", expiresIn := some 100 } 1000 initTokenState =
        Except.ok ⟨some "tok", 1000 + 3300 * 1000⟩)) :=
  ⟨rfl, getAppToken_expiry { httpOk := true, accessToken := "tok", expiresIn := some 100 } 1000 initTokenState rfl⟩

/-- JS truthiness of `TWITCH_TOKEN`: `null` and the empty string are falsy. -/
def tokenTruthy (t : Option String) : Bool :=
  match t with
  | none => false
  | some s => !(s == "")

/-- The refresh condition of `twitchHeaders`:
`!TWITCH_TOKEN || Date.now() > TWITCH_TOKEN_EXPIRES_AT`. -/
def needsTokenRefresh (st : TokenState) (now : Int) : Bool :=
  !tokenTruthy st.token || decide (now > st.expiresAt)

/-- The headers returned for Helix calls. -/
structure HelixHeaders where
  clientId : String
  authorization : String
deriving DecidableEq, Repr

/-- `twitchHeaders` (methods.js lines 42-50): refreshes the token when the
refresh condition holds, then returns the headers.  The second component
counts the credential-acquisition requests issued by this call (0 or 1). -/
def twitchHeaders (st : TokenState) (now : Int) (clientId : String)
    (resp : TokenResp) : Except String (TokenState × HelixHeaders) × Nat :=
  if needsTokenRefresh st now then
    match getAppToken resp now st with
    | Except.error e => (Except.error e, 1)
    | Except.ok st2 =>
      (Except.ok (st2, ⟨clientId, "Bearer " ++ st2.token.getD "null"⟩), 1)
  else (Except.ok (st, ⟨clientId, "Bearer " ++ st.token.getD "null"⟩), 0)

/-- C6: a `twitchHeaders` call issues a credential refresh request exactly
when no (truthy) token is held or the current time strictly exceeds the
stored `expiresAt`; with a token held and the time strictly before the
threshold, no refresh request is issued. -/
theorem twitchHeaders_refresh_iff (st : TokenState) (now : Int)
    (clientId : String) (resp : TokenResp) :
    ((twitchHeaders st now clientId resp).2 = 1 ↔
      (tokenTruthy st.token = false ∨ now > st.expiresAt)) ∧
    (tokenTruthy st.token = true → now < st.expiresAt →
      (twitchHeaders st now clientId resp).2 = 0) := by
  have hcond : needsTokenRefresh st now = true ↔
      (tokenTruthy st.token = false ∨ now > st.expiresAt) := by
    simp [needsTokenRefresh, Bool.or_eq_true, Bool.not_eq_true']
  constructor
  · constructor
    · intro h1
      by_cases hr : needsTokenRefresh st now = true
      · exact hcond.mp hr
      · rw [twitchHeaders, if_neg hr] at h1
        exact absurd h1 one_ne_zero.symm
    · intro hor
      rw [twitchHeaders, if_pos (hcond.mpr hor)]
      cases getAppToken resp now st <;> rfl
  · intro htok hlt
    have hr : needsTokenRefresh st now = false := by
      simp [needsTokenRefresh, htok]
      omega
    rw [twitchHeaders, hr]
    simp

/-- Witness for the C6 theorem: a held token strictly before its expiry. -/
theorem twitchHeaders_refresh_iff_witness :
    (((twitchHeaders ⟨some "tok", 50⟩ 10 "cid" ⟨true, "t2", none⟩).2 = 1 ↔
      (tokenTruthy (⟨some "tok", 50⟩ : TokenState).token = false ∨ (10 : Int) > (⟨some "tok", 50⟩ : TokenState).expiresAt)) ∧
    (tokenTruthy (⟨some "tok", 50⟩ : TokenState).token = true → (10 : Int) < (⟨some "tok", 50⟩ : TokenState).expiresAt →
      (twitchHeaders ⟨some "tok", 50⟩ 10 "cid" ⟨true, "t2", none⟩).2 = 0)) ∧
    (twitchHeaders ⟨some "tok", 50⟩ 10 "cid" ⟨true, "t2", none⟩).2 = 0 :=
  ⟨twitchHeaders_refresh_iff ⟨some "tok", 50⟩ 10 "cid" ⟨true, "t2", none⟩,
   (twitchHeaders_refresh_iff ⟨some "tok", 50⟩ 10 "cid" ⟨true, "t2", none⟩).2 (by decide) (by decide)⟩

/-! ### Batched Helix lookups (methods.js, `getUserIds` / `getLiveStreams`)

Both loops have the shape

    for (let i = 0; i < xs.length; i += 100) {
      const batch = xs.slice(i, i + 100);
      const res = await fetch(helixEndpoint(batch), { headers: await twitchHeaders() });
      if (!res.ok) throw ...;
      // merge res.json().data into the result object
    }

i.e. one upstream request per 100-element chunk of the input, processed in
order.  We model the iteration as recursion over these chunks, with the
number of remaining loop iterations (`fuel`, at most the list length since
each iteration consumes at least one element) making the recursion
structural.  Each embedded function also returns the list of batches it sent,
one entry per issued upstream request. -/

/-- The successive `xs.slice(i, i + 100)` chunks of a list, as produced by a
`for (i = 0; i < n; i += 100)` loop.  `fuel` bounds the number of
iterations; any `fuel ≥ xs.length` yields all chunks. -/
def chunkGo (fuel : Nat) (xs : List α) : List (List α) :=
  match fuel, xs with
  | _, [] => []
  | 0, xs => [xs]
  | f + 1, xs => xs.take 100 :: chunkGo f (xs.drop 100)

/-- All 100-element chunks of a list. -/
def chunk100 (xs : List α) : List (List α) :=
  chunkGo xs.length xs

theorem chunkGo_length (fuel : Nat) (xs : List α) (h : xs.length ≤ fuel) :
    (chunkGo fuel xs).length = (xs.length + 99) / 100 := by
  induction fuel generalizing xs with
  | zero =>
    rcases xs with _ | ⟨a, l⟩
    · simp [chunkGo]
    · simp at h
  | succ f ih =>
    rcases xs with _ | ⟨a, l⟩
    · simp [chunkGo]
    · have hlen : (List.drop 100 (a :: l)).length = (a :: l).length - 100 :=
        List.length_drop 100 (a :: l)
      have hle : (List.drop 100 (a :: l)).length ≤ f := by
        rw [hlen]; simp at h ⊢; omega
      have := ih (List.drop 100 (a :: l)) hle
      simp only [chunkGo, List.length_cons, this, hlen]
      simp
      omega

theorem chunkGo_mem_length (fuel : Nat) (xs : List α) (h : xs.length ≤ fuel)
    (b : List α) (hb : b ∈ chunkGo fuel xs) : b.length ≤ 100 := by
  induction fuel generalizing xs with
  | zero =>
    rcases xs with _ | ⟨a, l⟩
    · simp [chunkGo] at hb
    · simp at h
  | succ f ih =>
    rcases xs with _ | ⟨a, l⟩
    · simp [chunkGo] at hb
    · simp only [chunkGo, List.mem_cons] at hb
      rcases hb with hb | hb
      · subst hb
        exact List.length_take_le 100 (a :: l)
      · have hle : (List.drop 100 (a :: l)).length ≤ f := by
          rw [List.length_drop]; simp at h ⊢; omega
        exact ih _ hle hb

/-- A user object of the `/helix/users` response: `{ login, id }`. -/
structure UserObj where
  login : String
  id : String
deriving DecidableEq, Repr

/-- A stream object of the `/helix/streams` response, reduced to the key the
loop uses (`user_id`); the remaining fields do not influence control flow. -/
structure StreamObj where
  userId : String
deriving DecidableEq, Repr

/-- JS object assignment `map[k] = v`: overwrite an existing key or append. -/
def insertAssoc (m : List (String × String)) (k v : String) :
    List (String × String) :=
  if m.any (fun p => p.1 == k) then
    m.map (fun p => if p.1 == k then (k, v) else p)
  else m ++ [(k, v)]

/-- The loop of `getUserIds` (methods.js lines 53-70).  `respond j` is the
parsed `data.data` of the `j`-th issued request, or a thrown non-success
status.  Returns the result (or the propagated throw) and the list of sent
batches. -/
def getUserIdsGo (fuel : Nat) (j : Nat) (logins : List String)
    (respond : Nat → Except Unit (List UserObj))
    (map : List (String × String)) (reqs : List (List String)) :
    Except Unit (List (String × String)) × List (List String) :=
  match fuel, logins with
  | _, [] => (Except.ok map, reqs)
  | 0, _ => (Except.ok map, reqs)
  | f + 1, l =>
    let batch := l.take 100
    let reqs2 := reqs ++ [batch]
    match respond j with
    | Except.error e => (Except.error e, reqs2)
    | Except.ok users =>
      let map2 := users.foldl (fun m u => insertAssoc m u.login.toLower u.id) map
      getUserIdsGo f (j + 1) (l.drop 100) respond map2 reqs2

/-- `getUserIds` (methods.js lines 53-70): resolve logins to ids in batches
of at most 100 per request. -/
def getUserIds (logins : List String)
    (respond : Nat → Except Unit (List UserObj)) :
    Except Unit (List (String × String)) × List (List String) :=
  getUserIdsGo logins.length 0 logins respond [] []

/-- The loop of `getLiveStreams` (methods.js lines 74-93), same shape. -/
def getLiveStreamsGo (fuel : Nat) (j : Nat) (userIds : List String)
    (respond : Nat → Except Unit (List StreamObj))
    (live : List (String × StreamObj)) (reqs : List (List String)) :
    Except Unit (List (String × StreamObj)) × List (List String) :=
  match fuel, userIds with
  | _, [] => (Except.ok live, reqs)
  | 0, _ => (Except.ok live, reqs)
  | f + 1, l =>
    let batch := l.take 100
    let reqs2 := reqs ++ [batch]
    match respond j with
    | Except.error e => (Except.error e, reqs2)
    | Except.ok streams =>
      let live2 := streams.foldl
        (fun m s => if m.any (fun p => p.1 == s.userId) then
            m.map (fun p => if p.1 == s.userId then (s.userId, s) else p)
          else m ++ [(s.userId, s)]) live
      getLiveStreamsGo f (j + 1) (l.drop 100) respond live2 reqs2

/-- `getLiveStreams` (methods.js lines 74-93): short-circuits on an empty id
list, otherwise queries liveness in batches of at most 100 ids per request. -/
def getLiveStreams (userIds : List String)
    (respond : Nat → Except Unit (List StreamObj)) :
    Except Unit (List (String × StreamObj)) × List (List String) :=
  if userIds.isEmpty then (Except.ok [], [])
  else getLiveStreamsGo userIds.length 0 userIds respond [] []

theorem getUserIdsGo_reqs (fuel : Nat) (j : Nat) (logins : List String)
    (respond : Nat → Except Unit (List UserObj))
    (map : List (String × String)) (reqs : List (List String))
    (hf : logins.length ≤ fuel)
    (hok : ∀ k, respond k ≠ Except.error ()) :
    (getUserIdsGo fuel j logins respond map reqs).2 = reqs ++ chunkGo fuel logins := by
  induction fuel generalizing j logins map reqs with
  | zero =>
    rcases logins with _ | ⟨a, l⟩
    · simp [getUserIdsGo, chunkGo]
    · simp at hf
  | succ f ih =>
    rcases logins with _ | ⟨a, l⟩
    · simp [getUserIdsGo, chunkGo]
    · cases hr : respond j with
      | error e => exact absurd (by cases e; exact hr) (hok j)
      | ok users =>
        have hle : (List.drop 100 (a :: l)).length ≤ f := by
          rw [List.length_drop]; simp at hf ⊢; omega
        simp only [getUserIdsGo, hr]
        rw [ih (j + 1) _ _ _ hle]
        simp [chunkGo]

theorem getLiveStreamsGo_reqs (fuel : Nat) (j : Nat) (userIds : List String)
    (respond : Nat → Except Unit (List StreamObj))
    (live : List (String × StreamObj)) (reqs : List (List String))
    (hf : userIds.length ≤ fuel)
    (hok : ∀ k, respond k ≠ Except.error ()) :
    (getLiveStreamsGo fuel j userIds respond live reqs).2 = reqs ++ chunkGo fuel userIds := by
  induction fuel generalizing j userIds live reqs with
  | zero =>
    rcases userIds with _ | ⟨a, l⟩
    · simp [getLiveStreamsGo, chunkGo]
    · simp at hf
  | succ f ih =>
    rcases userIds with _ | ⟨a, l⟩
    · simp [getLiveStreamsGo, chunkGo]
    · cases hr : respond j with
      | error e => exact absurd (by cases e; exact hr) (hok j)
      | ok streams =>
        have hle : (List.drop 100 (a :: l)).length ≤ f := by
          rw [List.length_drop]; simp at hf ⊢; omega
        simp only [getLiveStreamsGo, hr]
        rw [ih (j + 1) _ _ _ hle]
        simp [chunkGo]

/-- Chunks taken with exactly enough fuel are independent of extra fuel; at
`fuel = length` they are the canonical chunks. -/
theorem chunk100_eq_chunkGo (xs : List α) : chunk100 xs = chunkGo xs.length xs := rfl

/-- C7: with all upstream requests succeeding, `getUserIds` on `n` logins and
`getLiveStreams` on `n` ids each issue exactly `⌈n/100⌉` requests, every
request carrying at most 100 identifiers; concretely, 250 inputs produce 3
batches of sizes 100, 100, 50 and 150 inputs produce 2 batches of sizes
100, 50. -/
theorem batching_request_counts (logins ids : List String)
    (ru : Nat → Except Unit (List UserObj))
    (rs : Nat → Except Unit (List StreamObj))
    (hu : ∀ k, ru k ≠ Except.error ())
    (hs : ∀ k, rs k ≠ Except.error ()) :
    (getUserIds logins ru).2.length = (logins.length + 99) / 100 ∧
    (∀ b ∈ (getUserIds logins ru).2, b.length ≤ 100) ∧
    (getLiveStreams ids rs).2.length = (ids.length + 99) / 100 ∧
    (∀ b ∈ (getLiveStreams ids rs).2, b.length ≤ 100) ∧
    (chunk100 (List.range 250)).map List.length = [100, 100, 50] ∧
    (chunk100 (List.range 150)).map List.length = [100, 50] := by
  have hu2 : (getUserIds logins ru).2 = chunkGo logins.length logins := by
    have := getUserIdsGo_reqs logins.length 0 logins ru [] [] le_rfl hu
    simpa [getUserIds] using this
  have hs2 : (getLiveStreams ids rs).2 = chunkGo ids.length ids := by
    rcases ids with _ | ⟨a, l⟩
    · simp [getLiveStreams, chunkGo]
    · have := getLiveStreamsGo_reqs (a :: l).length 0 (a :: l) rs [] [] le_rfl hs
      simpa [getLiveStreams] using this
  refine ⟨?_, ?_, ?_, ?_, by decide, by decide⟩
  · rw [hu2, chunkGo_length _ _ le_rfl]
  · intro b hb
    rw [hu2] at hb
    exact chunkGo_mem_length _ _ le_rfl b hb
  · rw [hs2, chunkGo_length _ _ le_rfl]
  · intro b hb
    rw [hs2] at hb
    exact chunkGo_mem_length _ _ le_rfl b hb

/-- Witness for the C7 theorem on concrete 250-login and 150-id inputs with
always-successful upstream responses. -/
theorem batching_request_counts_witness :
    (∀ k, (fun _ : Nat => (Except.ok [] : Except Unit (List UserObj))) k ≠ Except.error ()) ∧
    (∀ k, (fun _ : Nat => (Except.ok [] : Except Unit (List StreamObj))) k ≠ Except.error ()) ∧
    ((getUserIds ((List.range 250).map toString) (fun _ => Except.ok [])).2.length =
      (((List.range 250).map toString).length + 99) / 100 ∧
    (∀ b ∈ (getUserIds ((List.range 250).map toString) (fun _ => Except.ok [])).2, b.length ≤ 100) ∧
    (getLiveStreams ((List.range 150).map toString) (fun _ => Except.ok [])).2.length =
      (((List.range 150).map toString).length + 99) / 100 ∧
    (∀ b ∈ (getLiveStreams ((List.range 150).map toString) (fun _ => Except.ok [])).2, b.length ≤ 100) ∧
    (chunk100 (List.range 250)).map List.length = [100, 100, 50] ∧
    (chunk100 (List.range 150)).map List.length = [100, 50]) :=
  ⟨(fun _ h => nomatch h), (fun _ h => nomatch h),
   batching_request_counts ((List.range 250).map toString)
     ((List.range 150).map toString) (fun _ => Except.ok []) (fun _ => Except.ok [])
     (fun _ h => nomatch h) (fun _ h => nomatch h)⟩

/-! ### Retention sweep (methods.js, `startDeletionLoop`)

The current (documented) version of `startDeletionLoop` uses

    const threeHOURs = 180 * 60 * 1000;
    setInterval(async () => {
      const now = Date.now();
      const cutoff = now - threeHOURs;
      const toDelete = sentMessages.filter(m => m.sentAt <= cutoff);
      if (!toDelete.length) return;
      for (const m of toDelete) {
        try { await deleteTelegramMessage(m.chatId, m.messageId); } catch (e) {}
        const idx = sentMessages.findIndex(x => x.messageId === m.messageId && x.chatId === m.chatId);
        if (idx !== -1) sentMessages.splice(idx, 1);
      }
    }, threeHOURs);

One firing of the interval callback is modelled as `sweepOnce`; the
deletion outcome of each attempt is an oracle and is ignored by control
flow (the `try`/`catch` and `deleteTelegramMessage`'s own catch make every
attempt non-throwing). -/

/-- The sweep period and retention window: `180 * 60 * 1000` ms (3 hours). -/
def deletionPeriodMs : Int := 180 * 60 * 1000

/-- The `findIndex` predicate of the sweep:
`x.messageId === m.messageId && x.chatId === m.chatId`. -/
def recKeyMatch (m x : SentRec) : Bool :=
  x.messageId == m.messageId && x.chatId == m.chatId

/-- `findIndex` + `splice(idx, 1)`: remove the first record with matching
key, or leave the list unchanged when there is none. -/
def removeFirstByKey (m : SentRec) : List SentRec → List SentRec
  | [] => []
  | x :: xs => if recKeyMatch m x then xs else x :: removeFirstByKey m xs

/-- The `for (const m of toDelete)` loop: attempt deletion of each selected
record (outcome recorded but never consulted), then remove it from the
ledger. -/
def sweepGo (toDel : List SentRec) (outcome : SentRec → Bool)
    (led : List SentRec) (attempts : List (SentRec × Bool)) :
    List SentRec × List (SentRec × Bool) :=
  match toDel with
  | [] => (led, attempts)
  | m :: rest =>
    sweepGo rest outcome (removeFirstByKey m led) (attempts ++ [(m, outcome m)])

/-- One firing of the retention sweep (methods.js lines 435-457): returns
the ledger afterwards and the deletion attempts made (one per selected
record, paired with the attempt's outcome). -/
def sweepOnce (now : Int) (outcome : SentRec → Bool) (led : List SentRec) :
    List SentRec × List (SentRec × Bool) :=
  let cutoff := now - deletionPeriodMs
  let toDelete := led.filter (fun m => decide (m.sentAt ≤ cutoff))
  if toDelete.isEmpty then (led, [])
  else sweepGo toDelete outcome led []

theorem recKeyMatch_self (m : SentRec) : recKeyMatch m m = true := by
  simp [recKeyMatch]

theorem sweepGo_skip_head (toDel : List SentRec) (outcome : SentRec → Bool)
    (x : SentRec) (led : List SentRec) (attempts : List (SentRec × Bool))
    (hx : ∀ m ∈ toDel, recKeyMatch m x = false) :
    sweepGo toDel outcome (x :: led) attempts =
      ((x :: (sweepGo toDel outcome led attempts).1),
       (sweepGo toDel outcome led attempts).2) := by
  induction toDel generalizing led attempts with
  | nil => rfl
  | cons m rest ih =>
    have hmx : recKeyMatch m x = false := hx m (List.mem_cons_self _ _)
    have hrest : ∀ m' ∈ rest, recKeyMatch m' x = false :=
      fun m' hm' => hx m' (List.mem_cons_of_mem _ hm')
    simp only [sweepGo, removeFirstByKey, hmx, if_neg Bool.false_ne_true]
    exact ih _ _ hrest

theorem sweepGo_filter (led : List SentRec) (outcome : SentRec → Bool)
    (p : SentRec → Bool) (attempts : List (SentRec × Bool))
    (hnd : (led.map (fun r => (r.chatId, r.messageId))).Nodup) :
    sweepGo (led.filter p) outcome led attempts =
      (led.filter (fun m => !p m),
       attempts ++ (led.filter p).map (fun m => (m, outcome m))) := by
  induction led generalizing attempts with
  | nil => simp [sweepGo]
  | cons x l ih =>
    rw [List.map_cons, List.nodup_cons] at hnd
    obtain ⟨hkey, hnd'⟩ := hnd
    have hskip : ∀ m ∈ l, recKeyMatch m x = false := by
      intro m hm
      by_contra hcon
      rw [Bool.not_eq_false, recKeyMatch, Bool.and_eq_true_iff] at hcon
      obtain ⟨h1, h2⟩ := hcon
      rw [beq_iff_eq] at h1 h2
      exact hkey (by
        rw [List.mem_map]
        exact ⟨m, hm, by rw [h2, h1]⟩)
    cases hp : p x with
    | true =>
      have hstep : List.filter p (x :: l) = x :: List.filter p l := by
        simp [List.filter_cons, hp]
      rw [hstep]
      simp only [sweepGo, removeFirstByKey, recKeyMatch_self, eq_self_iff_true,
        if_true]
      rw [ih _ hnd']
      simp [List.filter_cons, hp]
    | false =>
      have hstep : List.filter p (x :: l) = List.filter p l := by
        simp [List.filter_cons, hp]
      rw [hstep]
      rw [sweepGo_skip_head _ _ _ _ _
        (fun m hm => hskip m (List.mem_of_mem_filter hm))]
      rw [ih _ hnd']
      simp [List.filter_cons, hp]

theorem filter_none_imp_all (p : SentRec → Bool) (led : List SentRec)
    (h : led.filter p = []) : led.filter (fun m => !p m) = led := by
  rw [List.filter_eq_self]
  intro a ha
  have := List.filter_eq_nil_iff.mp h a ha
  simp [this]

/-- C8: one firing of the 3-hour retention sweep — given the §3 data-model
invariant that no two ledger records share a `(chatId, messageId)` key —
keeps exactly the records with `sentAt > now − 3h`, removes every record
with `sentAt ≤ now − 3h` whether its single deletion attempt succeeded or
failed, makes exactly one attempt per removed record (in ledger order,
regardless of outcome), and both the firing period and the retention
window are the fixed constant `180 * 60 * 1000` ms = 3 hours. -/
theorem sweepOnce_spec (now : Int) (outcome : SentRec → Bool)
    (led : List SentRec)
    (hnd : (led.map (fun r => (r.chatId, r.messageId))).Nodup) :
    (sweepOnce now outcome led).1 =
      led.filter (fun m => decide (now - deletionPeriodMs < m.sentAt)) ∧
    (sweepOnce now outcome led).2 =
      (led.filter (fun m => decide (m.sentAt ≤ now - deletionPeriodMs))).map
        (fun m => (m, outcome m)) ∧
    deletionPeriodMs = 3 * 60 * 60 * 1000 := by
  have hcompl : ∀ m : SentRec,
      (!decide (m.sentAt ≤ now - deletionPeriodMs)) =
        decide (now - deletionPeriodMs < m.sentAt) := by
    intro m
    by_cases h : m.sentAt ≤ now - deletionPeriodMs
    · simp [h, not_lt.mpr h]
    · simp [h, lt_of_not_le h]
  by_cases hemp :
      (led.filter (fun m => decide (m.sentAt ≤ now - deletionPeriodMs))).isEmpty = true
  · rw [List.isEmpty_iff] at hemp
    have h2 : led.filter (fun m => decide (now - deletionPeriodMs < m.sentAt)) = led := by
      rw [← List.filter_congr (fun m _ => hcompl m)]
      exact filter_none_imp_all _ _ hemp
    refine ⟨?_, ?_, by norm_num [deletionPeriodMs]⟩
    · rw [sweepOnce]
      simp only [hemp, List.isEmpty_nil, eq_self_iff_true, if_true]
      exact h2.symm
    · rw [sweepOnce]
      simp only [hemp, List.isEmpty_nil, eq_self_iff_true, if_true]
      simp
  · refine ⟨?_, ?_, by norm_num [deletionPeriodMs]⟩
    · rw [sweepOnce]
      simp only [hemp, if_neg Bool.false_ne_true]
      rw [sweepGo_filter _ _ _ _ hnd]
      simp only
      rw [List.filter_congr (fun m _ => hcompl m)]
    · rw [sweepOnce]
      simp only [hemp, if_neg Bool.false_ne_true]
      rw [sweepGo_filter _ _ _ _ hnd]
      simp

/-- Witness for the C8 theorem: a ledger with one record 4 hours old and one
1 hour old, swept at a 3-hour window: the old record gets one attempt and is
removed (here the attempt fails), the fresh one stays. -/
theorem sweepOnce_spec_witness :
    (([⟨"c", 1, 0⟩, ⟨"c", 2, 13200000⟩] : List SentRec).map
        (fun r => (r.chatId, r.messageId))).Nodup ∧
    ((sweepOnce 14400000 (fun _ => false) [⟨"c", 1, 0⟩, ⟨"c", 2, 13200000⟩]).1 =
      ([⟨"c", 1, 0⟩, ⟨"c", 2, 13200000⟩] : List SentRec).filter
        (fun m => decide ((14400000 : Int) - deletionPeriodMs < m.sentAt)) ∧
    (sweepOnce 14400000 (fun _ => false) [⟨"c", 1, 0⟩, ⟨"c", 2, 13200000⟩]).2 =
      (([⟨"c", 1, 0⟩, ⟨"c", 2, 13200000⟩] : List SentRec).filter
        (fun m => decide (m.sentAt ≤ (14400000 : Int) - deletionPeriodMs))).map
        (fun m => (m, false)) ∧
    deletionPeriodMs = 3 * 60 * 60 * 1000) :=
  ⟨by decide,
   sweepOnce_spec 14400000 (fun _ => false)
     [⟨"c", 1, 0⟩, ⟨"c", 2, 13200000⟩] (by decide)⟩

/-! ### Caption formatting and HTML escaping (methods.js, `escapeHtml` /
`tgSendStream` caption) -/

/-- JS `str.replace(/c/g, rep)` for a single-character pattern `c`: every
occurrence of the character is replaced by `rep` in one left-to-right pass
(characters inserted by the pass are not re-examined by it). -/
def jsReplaceAllChar (c : Char) (rep : String) (s : String) : String :=
  String.mk (s.data.flatMap (fun ch => if ch = c then rep.data else [ch]))

/-- `escapeHtml` (methods.js lines 96-101): global replacement of `&`, then
`<`, then `>`, in that order (all three regex patterns are single
characters). -/
def escapeHtml (s : String) : String :=
  jsReplaceAllChar '>' "&gt;"
    (jsReplaceAllChar '<' "&lt;"
      (jsReplaceAllChar '&' "&amp;" s))

/-- The fields of a stream object used by the caption of `tgSendStream`. -/
structure StreamSnapshot where
  userName : String
  gameName : String
  title : String
  userLogin : String
deriving DecidableEq, Repr

/-- The caption built by `tgSendStream` (methods.js lines 110-114): the
display name, game name and title are escaped independently; the login in
the URL is interpolated unescaped. -/
def streamCaption (s : StreamSnapshot) : String :=
  "🔴 " ++ escapeHtml s.userName ++ " ведет стримчанский!\n" ++
  "🎮 " ++ escapeHtml s.gameName ++ "\n" ++
  "📝 " ++ escapeHtml s.title ++ "\n" ++
  "▶️ Запрыгиваем здесь https://twitch.tv/" ++ s.userLogin

/-- C9: the escaping replaces `&` by `&amp;`, then `<` by `&lt;`, then `>`
by `&gt;`, in that order; it maps `<b>A & B</b>` to
`&lt;b&gt;A &amp; B&lt;/b&gt;`; and the caption applies it independently to
each interpolated field (display name, game name, title). -/
theorem escapeHtml_spec :
    (∀ s : String, escapeHtml s =
      jsReplaceAllChar '>' "&gt;"
        (jsReplaceAllChar '<' "&lt;" (jsReplaceAllChar '&' "&amp;" s))) ∧
    escapeHtml "<b>A & B</b>" = "&lt;b&gt;A &amp; B&lt;/b&gt;" ∧
    streamCaption ⟨"<b>A & B</b>", "R&D", "a<b", "chan"⟩ =
      "🔴 &lt;b&gt;A &amp; B&lt;/b&gt; ведет стримчанский!\n" ++
      "🎮 R&amp;D\n" ++
      "📝 a&lt;b\n" ++
      "▶️ Запрыгиваем здесь https://twitch.tv/chan" := by
  refine ⟨fun s => rfl, ?_, ?_⟩
  · decide
  · decide

end TwitchBot
